import Mathlib

/-!
Shallow embedding of `sort_animal_day.py` (franklab_sorting_pipeline).

The source is a batch spike-sorting driver: `main` walks an animal-day
directory (epochs containing ntrodes), creates output directories, and
submits one `CustomSorting` job per ntrode to an `mlpr.JobQueue`.
`CustomSorting.run` optionally masks artifacts through an external shell
invocation, loads the recording, band-pass filters, optionally whitens,
runs the sorter, and writes the firings file, all inside a scoped
temporary directory.

Numeric parameters declared as `FloatParameter` in the source are embedded
as rationals (they are only passed around, never computed with here);
`IntegerParameter` becomes `Int`.  External scientific stages (readmda,
bandpass, whiten, mountainsort4) are embedded symbolically as free term
formers so that dataflow facts are exact; the scheduler/cache of the
external `mlprocessors` library is modelled from the spec where noted.
-/

namespace SortAnimalDay

/-- Pipeline Configuration: the parameter fields declared on `CustomSorting`
(source lines 105-129), in source declaration order. -/
structure Config where
  samplerate : ℚ
  mask_out_artifacts : Bool
  freq_min : ℚ
  freq_max : ℚ
  whiten : Bool
  detect_sign : Int
  adjacency_radius : ℚ
  clip_size : Int
  detect_threshold : ℚ
  detect_interval : Int
  noise_overlap_threshold : Option ℚ
  deriving DecidableEq, Repr

/-- In-memory recording, embedded as the free term built by the load and
preprocessing stages so that dataflow through the pipeline is exact.
`loaded path sr` is `se.NumpyRecordingExtractor(readmda(path), samplerate=sr)`. -/
inductive Recording where
  | loaded (path : String) (samplerate : ℚ)
  | bandpassed (r : Recording) (freq_min freq_max : ℚ)
  | whitened (r : Recording)
  deriving DecidableEq, Repr

/-- Modelled from the spec: `st.preprocessing.bandpass_filter` is an external
library stage not in this repository.  The source's own parameter
documentation ("Use 0 for no bandpass filtering") and spec §4.4 stage 3 make
zero bounds a pass-through; nonzero bounds apply the filter. -/
def bandpass_filter (recording : Recording) (freq_min freq_max : ℚ) : Recording :=
  if freq_min = 0 ∧ freq_max = 0 then recording
  else .bandpassed recording freq_min freq_max

/-- The argument record handed to `ml_ms4alg.mountainsort4`
(source lines 155-163). -/
structure SortCall where
  recording : Recording
  detect_sign : Int
  adjacency_radius : ℚ
  clip_size : Int
  detect_threshold : ℚ
  detect_interval : Int
  num_workers : Nat
  deriving DecidableEq, Repr

/-- The output artifact content: `write_sorting` writes the result of the
(deterministic) sort call, so the artifact is determined by that call. -/
abbrev Artifact := SortCall

/-- The shell command interpolated by `_mask_out_artifacts`
(source lines 184-187), including the source's `timeserious_out` typo. -/
def maskCommand (timeseries_in timeseries_out : String) : String :=
  "mp-run-process ms3.mask_out_artifacts --timeseries " ++ timeseries_in
    ++ " --timeserious_out " ++ timeseries_out

/-- `_mask_out_artifacts` (source lines 183-191): run the shell command via
the external runner (exit status as `Int`); on nonzero status raise
`Exception('problem running ms3.mask_out_artifacts')`, embedded as
`some message`; `none` is normal return. -/
def _mask_out_artifacts (runner : String → Int) (timeseries_in timeseries_out : String) :
    Option String :=
  if runner (maskCommand timeseries_in timeseries_out) ≠ 0 then
    some "problem running ms3.mask_out_artifacts"
  else
    none

/-- The load stage (source lines 143-145): `X = sf.mdaio.readmda(rec_fname)`
then `se.NumpyRecordingExtractor(X, samplerate=30000, geom)`.  The sample
rate is the literal 30000; `Config.samplerate` is not consulted. -/
def loadedRecording (rec_fname : String) : Recording :=
  .loaded rec_fname 30000

/-- Load followed by the band-pass stage (source lines 143-149). -/
def filteredRecording (cfg : Config) (rec_fname : String) : Recording :=
  bandpass_filter (loadedRecording rec_fname) cfg.freq_min cfg.freq_max

/-- The recording handed to the sorter after optional whitening
(source lines 150-151). -/
def preprocessedRecording (cfg : Config) (rec_fname : String) : Recording :=
  if cfg.whiten then .whitened (filteredRecording cfg rec_fname)
  else filteredRecording cfg rec_fname

/-- Result of the load-through-write tail of `CustomSorting.run`
(source lines 143-167): which path `readmda` read, the sorter invocation,
and where the firings artifact was written. -/
structure RunSuccess where
  loadPath : String
  sortCall : SortCall
  firingsPath : String
  deriving DecidableEq, Repr

/-- The load / filter / whiten / sort / write tail of `CustomSorting.run`
(source lines 143-167), with `num_workers = 2` as in the source. -/
def loadAndSort (cfg : Config) (rec_fname firings_out : String) : RunSuccess :=
  { loadPath := rec_fname
    sortCall :=
      { recording := preprocessedRecording cfg rec_fname
        detect_sign := cfg.detect_sign
        adjacency_radius := cfg.adjacency_radius
        clip_size := cfg.clip_size
        detect_threshold := cfg.detect_threshold
        detect_interval := cfg.detect_interval
        num_workers := 2 }
    firingsPath := firings_out }

/-- Normal return or propagated exception of one `run` body. -/
inductive Outcome where
  | ok (s : RunSuccess)
  | error (msg : String)
  deriving DecidableEq, Repr

/-- Observable behaviour of one `CustomSorting.run` body: the list of
`(input read, output written)` pairs of mask invocations made, and the
outcome. -/
structure RunResult where
  maskCalls : List (String × String)
  outcome : Outcome
  deriving DecidableEq, Repr

namespace CustomSorting

/-- `CustomSorting.NAME` (source line 99). -/
def NAME : String := "CustomSorting"

/-- `CustomSorting.VERSION` (source line 100). -/
def VERSION : String := "0.1.4"

/-- `CustomSorting.run` (source lines 131-167), given the temporary
directory path allocated by the surrounding `with TemporaryDirectory()`
block: if `mask_out_artifacts`, mask from the original input into
`tmpdir/raw.mda` (an exception propagates); then load from the chosen
path and sort. -/
def run (runner : String → Int) (cfg : Config)
    (recording_file_in firings_out tmpdir : String) : RunResult :=
  if cfg.mask_out_artifacts then
    let rec_fname := tmpdir ++ "/raw.mda"
    match _mask_out_artifacts runner recording_file_in rec_fname with
    | some msg => { maskCalls := [(recording_file_in, rec_fname)], outcome := .error msg }
    | none =>
        { maskCalls := [(recording_file_in, rec_fname)]
          outcome := .ok (loadAndSort cfg rec_fname firings_out) }
  else
    { maskCalls := [], outcome := .ok (loadAndSort cfg recording_file_in firings_out) }

end CustomSorting

/-! ### Scoped temporary workspace (source lines 169-181, 135) -/

/-- Filesystem contents, embedded as the list of existing paths. -/
abbrev FS := List String

/-- True when `p` is `dir` itself or lies strictly below `dir`. -/
def underDir (dir p : String) : Bool :=
  p = dir || (dir ++ "/").toList.isPrefixOf p.toList

/-- `shutil.rmtree(dir)` (source line 178): remove `dir` and everything
below it. -/
def rmtree (fs : FS) (dir : String) : FS :=
  fs.filter (fun p => !(underDir dir p))

/-- The `with TemporaryDirectory() as tmpdir:` block around the run body
(source lines 135, 169-181): `__enter__` creates the directory
(`tempfile.mkdtemp`), the body runs — threading the filesystem and either
returning normally or raising — and `__exit__` runs `shutil.rmtree` on
every exit path before the outcome propagates. -/
def withTemporaryDirectory (fs : FS) (tmpdir : String)
    (body : String → FS → Outcome × FS) : Outcome × FS :=
  let fs1 := tmpdir :: fs
  let r := body tmpdir fs1
  (r.1, rmtree r.2 tmpdir)

/-! ### Dataset model and `main` (source lines 21-95, 195-207) -/

/-- `load_ntrode` (source lines 70-75): name, path, and the snapshot
reference created for the recording file. -/
structure Ntrode where
  name : String
  path : String
  recording_file : String
  deriving DecidableEq, Repr

/-- `load_epoch` (source lines 77-89). -/
structure Epoch where
  name : String
  path : String
  ntrodes : List Ntrode
  deriving DecidableEq, Repr

/-- `mkdir2` (source lines 93-95): create the directory only when it does
not already exist. -/
def mkdir2 (fs : FS) (path : String) : FS :=
  if path ∈ fs then fs else path :: fs

/-- One job submitted to the queue by `spike_sorting`
(source lines 195-207). -/
structure Job where
  recording_file_in : String
  firings_out : String
  cfg : Config
  force_run : Bool
  deriving DecidableEq, Repr

/-- The configuration `spike_sorting` passes to `CustomSorting.execute`
(source lines 196-206), with the declared defaults for the omitted fields
`clip_size=50`, `detect_threshold=3`, `detect_interval=10`,
`noise_overlap_threshold=0.15`. -/
def spikeSortingConfig : Config :=
  { samplerate := 30000
    mask_out_artifacts := true
    freq_min := 300
    freq_max := 6000
    whiten := true
    detect_sign := -1
    adjacency_radius := 50
    clip_size := 50
    detect_threshold := 3
    detect_interval := 10
    noise_overlap_threshold := some (3 / 20) }

/-- `spike_sorting` (source lines 195-207): submit one `CustomSorting`
job for the given input and output paths. -/
def spike_sorting (recording_file_in firings_out : String) (force_run : Bool) : Job :=
  { recording_file_in := recording_file_in
    firings_out := firings_out
    cfg := spikeSortingConfig
    force_run := force_run }

/-- The per-ntrode body of `main`'s inner loop (source lines 57-67):
create the ntrode output directory, then submit the sorting job with
`firings_out = output/epoch/ntrode/firings.mda`. -/
def processNtrode (out ename : String) (force_run : Bool)
    (acc : FS × List Job) (n : Ntrode) : FS × List Job :=
  let dir := out ++ "/" ++ ename ++ "/" ++ n.name
  let fs := mkdir2 acc.1 dir
  (fs, acc.2 ++ [spike_sorting n.recording_file (dir ++ "/firings.mda") force_run])

/-- The per-epoch body of `main`'s outer loop (source lines 54-67):
create the epoch output directory, then process each ntrode in order. -/
def processEpoch (out : String) (force_run : Bool)
    (acc : FS × List Job) (e : Epoch) : FS × List Job :=
  e.ntrodes.foldl (processNtrode out e.name force_run) (mkdir2 acc.1 (out ++ "/" ++ e.name), acc.2)

/-- The directory-creation and job-submission behaviour of `main`
(source lines 47-68): create the output root, then walk epochs and
ntrodes in order, returning the final filesystem and the submitted jobs
in submission order. -/
def main (out : String) (epochs : List Epoch) (force_run : Bool) (fs0 : FS) :
    FS × List Job :=
  epochs.foldl (processEpoch out force_run) (mkdir2 fs0 out, [])

/-! ### Job queue, cache and scheduler

The queue, cache and worker pool live in the external `mlprocessors`
library (`mlpr.ParallelJobHandler`, `mlpr.JobQueue`, `Processor.execute`);
only their call sites are in this repository's source.  They are modelled
from the spec (§3, §4.5, §5). -/

/-- Modelled from the spec: the cache key of §3/§4.5 — operation identity
and version, the full Pipeline Configuration, and the input Snapshot
Reference. -/
structure CacheKey where
  name : String
  version : String
  cfg : Config
  snapshot : String
  deriving DecidableEq, Repr

/-- The cache key of a `CustomSorting` job on a given snapshot. -/
def cacheKey (cfg : Config) (snapshot : String) : CacheKey :=
  { name := CustomSorting.NAME, version := CustomSorting.VERSION
    cfg := cfg, snapshot := snapshot }

/-- Terminal Job Result (spec §3). -/
inductive JobResult where
  | Succeeded (artifact : Artifact)
  | CacheHit (artifact : Artifact)
  | Failed (msg : String)
  deriving DecidableEq, Repr

/-- Modelled from the spec: the durable cache plus a counter of actual
pipeline executions. -/
structure CacheState where
  entries : List (CacheKey × Artifact)
  execCount : Nat
  deriving DecidableEq, Repr

/-- The empty cache at the start of a fresh batch. -/
def initialCache : CacheState := { entries := [], execCount := 0 }

/-- Lookup of a cache key among the recorded entries. -/
def lookupCache : List (CacheKey × Artifact) → CacheKey → Option Artifact
  | [], _ => none
  | e :: rest, k => if e.1 = k then some e.2 else lookupCache rest k

/-- Modelled from the spec (§4.5): one job execution through the caching
scheduler.  Unless `force_run` is set, a hit on the cache key
short-circuits to `CacheHit` without running the pipeline; otherwise the
(deterministic) pipeline runs, the entry is recorded and `Succeeded` is
reported. -/
def execute (pipe : Config → String → Artifact) (cfg : Config) (snapshot : String)
    (force_run : Bool) (st : CacheState) : JobResult × CacheState :=
  let key := cacheKey cfg snapshot
  match if force_run then none else lookupCache st.entries key with
  | some art => (JobResult.CacheHit art, st)
  | none =>
      (JobResult.Succeeded (pipe cfg snapshot),
       { entries := (key, pipe cfg snapshot) :: st.entries, execCount := st.execCount + 1 })

/-- Modelled from the spec (§4.5/§7): the batch gives every submitted job
its own terminal result, independent of its siblings' outcomes. -/
def runBatch (pipe : Job → JobResult) (jobs : List Job) : List (Job × JobResult) :=
  jobs.map (fun j => (j, pipe j))

/-- Modelled from the spec (§4.5/§5): scheduler state — jobs still queued
in submission (FIFO) order, jobs currently running, and the ids in the
order their execution started. -/
structure SchedState where
  pending : List Nat
  running : List Nat
  started : List Nat
  deriving DecidableEq, Repr

/-- Modelled from the spec (§4.5/§5): a scheduler transition with worker
pool size `N`.  A start dequeues the head of the FIFO queue only when a
worker is free; a finish removes a running job. -/
inductive SchedStep (N : Nat) : SchedState → SchedState → Prop where
  | start (j : Nat) (rest running started : List Nat) (h : running.length < N) :
      SchedStep N ⟨j :: rest, running, started⟩ ⟨rest, j :: running, started ++ [j]⟩
  | finish (j : Nat) (pending r1 r2 started : List Nat) :
      SchedStep N ⟨pending, r1 ++ j :: r2, started⟩ ⟨pending, r1 ++ r2, started⟩

/-- States the scheduler can reach from a batch of submitted jobs. -/
inductive SchedReachable (N : Nat) (jobs : List Nat) : SchedState → Prop where
  | init : SchedReachable N jobs ⟨jobs, [], []⟩
  | step {s t : SchedState} :
      SchedReachable N jobs s → SchedStep N s t → SchedReachable N jobs t

/-! ### Auxiliary definitions used in statements and witnesses -/

/-- The configuration with the samplerate field replaced. -/
def setSamplerate (cfg : Config) (s : ℚ) : Config :=
  { cfg with samplerate := s }

/-- The configuration with the noise-overlap curation threshold replaced. -/
def setNoiseOverlap (cfg : Config) (t : Option ℚ) : Config :=
  { cfg with noise_overlap_threshold := t }

/-- Sample rate the loaded base recording was constructed with, traced
through the preprocessing wrappers. -/
def baseSamplerate : Recording → ℚ
  | .loaded _ sr => sr
  | .bandpassed r _ _ => baseSamplerate r
  | .whitened r => baseSamplerate r

/-- The `spike_sorting` configuration with zero filter bounds. -/
def cfgZeroBand : Config :=
  { spikeSortingConfig with freq_min := 0, freq_max := 0 }

/-- The `spike_sorting` configuration with the opposite detect sign. -/
def cfgDetectPlus : Config :=
  { spikeSortingConfig with detect_sign := 1 }

/-- The `spike_sorting` configuration with masking disabled. -/
def cfgMaskOff : Config :=
  { spikeSortingConfig with mask_out_artifacts := false }

/-- The concrete pipeline function induced by the embedded run tail. -/
def pipelineArtifact : Config → String → Artifact :=
  fun cfg snapshot => (loadAndSort cfg snapshot "firings.mda").sortCall

/-- A concrete workspace body for witnesses: writes one file inside the
workspace and raises. -/
def bodyW : String → FS → Outcome × FS :=
  fun tmpdir fs => (Outcome.error "problem running ms3.mask_out_artifacts",
    (tmpdir ++ "/raw.mda") :: fs)

/-- A concrete job for witnesses. -/
def sampleJob : Job := spike_sorting "in.mda" "out/firings.mda" false

/-- A concrete batch result function for witnesses: every job fails. -/
def failingPipe : Job → JobResult :=
  fun _ => JobResult.Failed "problem running ms3.mask_out_artifacts"

/-- Jobs `main` submits for one epoch, in ntrode order. -/
def epochJobs (out : String) (force_run : Bool) (e : Epoch) : List Job :=
  e.ntrodes.map (fun n =>
    spike_sorting n.recording_file
      (out ++ "/" ++ e.name ++ "/" ++ n.name ++ "/firings.mda") force_run)

/-- Jobs `main` submits for a whole animal day, in submission order. -/
def allJobs (out : String) (force_run : Bool) : List Epoch → List Job
  | [] => []
  | e :: es => epochJobs out force_run e ++ allJobs out force_run es

/-- A concrete ntrode for witnesses. -/
def ntrodeW : Ntrode :=
  { name := "unit1", path := "animal/20170913/unit1.mda", recording_file := "snap-unit1" }

/-- A concrete epoch for witnesses. -/
def epochW : Epoch :=
  { name := "20170913", path := "animal/20170913", ntrodes := [ntrodeW] }

/-- A concrete reachable scheduler state for witnesses: one worker, jobs
`[0, 1]` submitted, job 0 started. -/
def schedW : SchedState := { pending := [1], running := [0], started := [0] }

/-! ### Theorems -/

/-- C3: with `freq_min = 0` and `freq_max = 0` the band-pass stage is a
pass-through — the recording handed to the whitening stage is exactly the
loaded recording — and the pipeline still proceeds to the sorter (the zero
bounds are a valid edge case, not an error). -/
theorem zero_band_pass_through (cfg : Config) (p f : String)
    (h1 : cfg.freq_min = 0) (h2 : cfg.freq_max = 0) :
    filteredRecording cfg p = loadedRecording p ∧
    (loadAndSort cfg p f).sortCall.recording =
      (if cfg.whiten then Recording.whitened (loadedRecording p) else loadedRecording p) := by
  have hf : filteredRecording cfg p = loadedRecording p := by
    simp [filteredRecording, bandpass_filter, h1, h2]
  refine ⟨hf, ?_⟩
  simp [loadAndSort, preprocessedRecording, hf]

/-- C3 witness: the pass-through at the concrete zero-band configuration. -/
theorem zero_band_pass_through_witness :
    filteredRecording cfgZeroBand "raw.mda" = loadedRecording "raw.mda" ∧
    (loadAndSort cfgZeroBand "raw.mda" "firings.mda").sortCall.recording =
      (if cfgZeroBand.whiten then Recording.whitened (loadedRecording "raw.mda")
       else loadedRecording "raw.mda") :=
  zero_band_pass_through cfgZeroBand "raw.mda" "firings.mda" rfl rfl

/-- C5: with masking enabled the mask invocation reads the original input
and writes the workspace-local `tmpdir/raw.mda`, which the load stage then
reads; with masking disabled there is no mask invocation and the load stage
reads the original input directly. -/
theorem mask_dataflow (runner : String → Int) (cfg : Config) (rin fout tmp : String) :
    (cfg.mask_out_artifacts = true →
      (CustomSorting.run runner cfg rin fout tmp).maskCalls = [(rin, tmp ++ "/raw.mda")] ∧
      (runner (maskCommand rin (tmp ++ "/raw.mda")) = 0 →
        (CustomSorting.run runner cfg rin fout tmp).outcome =
          .ok (loadAndSort cfg (tmp ++ "/raw.mda") fout))) ∧
    (cfg.mask_out_artifacts = false →
      (CustomSorting.run runner cfg rin fout tmp).maskCalls = [] ∧
      (CustomSorting.run runner cfg rin fout tmp).outcome = .ok (loadAndSort cfg rin fout)) := by
  constructor
  · intro hm
    constructor
    · cases h : _mask_out_artifacts runner rin (tmp ++ "/raw.mda") <;>
        simp [CustomSorting.run, hm, h]
    · intro hz
      have h : _mask_out_artifacts runner rin (tmp ++ "/raw.mda") = none := by
        simp [_mask_out_artifacts, hz]
      simp [CustomSorting.run, hm, h]
  · intro hm
    simp [CustomSorting.run, hm]

/-- C5 witness: concrete dataflow with masking enabled and a succeeding
runner, and with masking disabled. -/
theorem mask_dataflow_witness :
    (CustomSorting.run (fun _ => 0) spikeSortingConfig "in.mda" "firings.mda" "/tmp/ws").maskCalls
      = [("in.mda", "/tmp/ws" ++ "/raw.mda")] ∧
    (CustomSorting.run (fun _ => 0) spikeSortingConfig "in.mda" "firings.mda" "/tmp/ws").outcome
      = .ok (loadAndSort spikeSortingConfig ("/tmp/ws" ++ "/raw.mda") "firings.mda") ∧
    (CustomSorting.run (fun _ => 0) cfgMaskOff "in.mda" "firings.mda" "/tmp/ws").maskCalls = [] ∧
    (CustomSorting.run (fun _ => 0) cfgMaskOff "in.mda" "firings.mda" "/tmp/ws").outcome
      = .ok (loadAndSort cfgMaskOff "in.mda" "firings.mda") := by
  have h1 := (mask_dataflow (fun _ => 0) spikeSortingConfig "in.mda" "firings.mda" "/tmp/ws").1 rfl
  have h2 := (mask_dataflow (fun _ => 0) cfgMaskOff "in.mda" "firings.mda" "/tmp/ws").2 rfl
  exact ⟨h1.1, h1.2 rfl, h2.1, h2.2⟩

/-- C2 counterexample: the exception raised on a nonzero exit status is the
fixed message `problem running ms3.mask_out_artifacts`; statuses 1 and 2
produce identical errors, so the error cannot carry the exit status (nor
the full command line), refuting the claim as stated. -/
theorem mask_error_drops_status :
    _mask_out_artifacts (fun _ => 1) "input.mda" "masked.mda" =
      some "problem running ms3.mask_out_artifacts" ∧
    _mask_out_artifacts (fun _ => 2) "input.mda" "masked.mda" =
      _mask_out_artifacts (fun _ => 1) "input.mda" "masked.mda" := by
  exact ⟨rfl, rfl⟩

/-- C2 (amended): on a nonzero exit status of the external masking
operation, the stage raises an error with a fixed message naming the
masking operation (but not the exit status), the run aborts with that
error (never silently ignored), the runner is invoked exactly once (no
automatic retry), and in the batch model every submitted job still reaches
its own terminal result. -/
theorem mask_failure_aborts_without_retry (runner : String → Int) (cfg : Config)
    (rin fout tmp : String) (hm : cfg.mask_out_artifacts = true)
    (hs : runner (maskCommand rin (tmp ++ "/raw.mda")) ≠ 0)
    (pipe : Job → JobResult) (jobs : List Job) (j : Job) (hj : j ∈ jobs) :
    CustomSorting.run runner cfg rin fout tmp =
      { maskCalls := [(rin, tmp ++ "/raw.mda")]
        outcome := .error "problem running ms3.mask_out_artifacts" } ∧
    (j, pipe j) ∈ runBatch pipe jobs := by
  constructor
  · have h : _mask_out_artifacts runner rin (tmp ++ "/raw.mda") =
        some "problem running ms3.mask_out_artifacts" := by
      simp [_mask_out_artifacts, hs]
    simp [CustomSorting.run, hm, h]
  · simp only [runBatch, List.mem_map]
    exact ⟨j, hj, rfl⟩

/-- C2 witness: the amended behaviour at exit status 1 on the
`spike_sorting` configuration. -/
theorem mask_failure_aborts_without_retry_witness :
    CustomSorting.run (fun _ => 1) spikeSortingConfig "in.mda" "firings.mda" "/tmp/ws" =
      { maskCalls := [("in.mda", "/tmp/ws" ++ "/raw.mda")]
        outcome := .error "problem running ms3.mask_out_artifacts" } ∧
    (sampleJob, failingPipe sampleJob) ∈ runBatch failingPipe [sampleJob] :=
  mask_failure_aborts_without_retry (fun _ => 1) spikeSortingConfig
    "in.mda" "firings.mda" "/tmp/ws" rfl (by decide)
    failingPipe [sampleJob] sampleJob (by simp)

/-- C6: the sorter receives exactly the configured detect sign, adjacency
radius, clip size, detection threshold and detection interval; but the
noise-overlap curation threshold has no effect — the run result is
identical for every value of the threshold, i.e. no automated curation is
ever applied, contradicting the claim's second half (the parameter is
declared with default 0.15 and its description promises curation, yet
`run` never reads it). -/
theorem sort_params_received_no_curation (cfg : Config) (t : Option ℚ) (p f : String) :
    (loadAndSort cfg p f).sortCall.detect_sign = cfg.detect_sign ∧
    (loadAndSort cfg p f).sortCall.adjacency_radius = cfg.adjacency_radius ∧
    (loadAndSort cfg p f).sortCall.clip_size = cfg.clip_size ∧
    (loadAndSort cfg p f).sortCall.detect_threshold = cfg.detect_threshold ∧
    (loadAndSort cfg p f).sortCall.detect_interval = cfg.detect_interval ∧
    loadAndSort (setNoiseOverlap cfg t) p f = loadAndSort cfg p f :=
  ⟨rfl, rfl, rfl, rfl, rfl, rfl⟩

/-- Sample-rate bookkeeping: the band-pass wrapper does not change the base
sample rate. -/
theorem baseSamplerate_bandpass (r : Recording) (a b : ℚ) :
    baseSamplerate (bandpass_filter r a b) = baseSamplerate r := by
  by_cases h : a = 0 ∧ b = 0 <;> simp [bandpass_filter, h, baseSamplerate]

/-- C10: the load stage hardcodes sample rate 30000, so two runs differing
only in the `samplerate` configuration field behave identically — the base
recording carries 30000 in both and the whole run result is equal — while
their cache keys still differ. -/
theorem samplerate_irrelevant (runner : String → Int) (cfg : Config) (s : ℚ)
    (rin fout tmp snapshot : String) (hs : s ≠ cfg.samplerate) :
    CustomSorting.run runner (setSamplerate cfg s) rin fout tmp =
      CustomSorting.run runner cfg rin fout tmp ∧
    baseSamplerate (preprocessedRecording cfg rin) = 30000 ∧
    baseSamplerate (preprocessedRecording (setSamplerate cfg s) rin) = 30000 ∧
    cacheKey (setSamplerate cfg s) snapshot ≠ cacheKey cfg snapshot := by
  refine ⟨rfl, ?_, ?_, ?_⟩
  · by_cases h : cfg.whiten <;>
      simp [preprocessedRecording, filteredRecording, loadedRecording, h,
        baseSamplerate, baseSamplerate_bandpass]
  · by_cases h : cfg.whiten <;>
      simp [preprocessedRecording, filteredRecording, loadedRecording, setSamplerate, h,
        baseSamplerate, baseSamplerate_bandpass]
  · intro he
    have hc : setSamplerate cfg s = cfg := congrArg CacheKey.cfg he
    exact hs (congrArg Config.samplerate hc)

/-- C10 witness: the sample-rate change from 30000 to 20000 on the
`spike_sorting` configuration. -/
theorem samplerate_irrelevant_witness :
    CustomSorting.run (fun _ => 0) (setSamplerate spikeSortingConfig 20000)
        "in.mda" "firings.mda" "/tmp/ws" =
      CustomSorting.run (fun _ => 0) spikeSortingConfig "in.mda" "firings.mda" "/tmp/ws" ∧
    baseSamplerate (preprocessedRecording spikeSortingConfig "in.mda") = 30000 ∧
    baseSamplerate (preprocessedRecording (setSamplerate spikeSortingConfig 20000) "in.mda")
      = 30000 ∧
    cacheKey (setSamplerate spikeSortingConfig 20000) "snap" ≠
      cacheKey spikeSortingConfig "snap" :=
  samplerate_irrelevant (fun _ => 0) spikeSortingConfig 20000
    "in.mda" "firings.mda" "/tmp/ws" "snap" (by decide)

/-- C1: from an empty cache, two submissions of the same configuration and
snapshot without `force_run` execute the pipeline exactly once, the first
reporting `Succeeded` and the second a `CacheHit` with the same artifact;
with `force_run` both submissions execute and both report `Succeeded` with
byte-identical artifacts. -/
theorem idempotence_and_force_determinism (pipe : Config → String → Artifact)
    (cfg : Config) (snapshot : String) :
    (execute pipe cfg snapshot false initialCache).1 = .Succeeded (pipe cfg snapshot) ∧
    (execute pipe cfg snapshot false initialCache).2.execCount = 1 ∧
    (execute pipe cfg snapshot false (execute pipe cfg snapshot false initialCache).2).1 =
      .CacheHit (pipe cfg snapshot) ∧
    (execute pipe cfg snapshot false (execute pipe cfg snapshot false initialCache).2).2.execCount
      = 1 ∧
    (execute pipe cfg snapshot true initialCache).1 = .Succeeded (pipe cfg snapshot) ∧
    (execute pipe cfg snapshot true (execute pipe cfg snapshot true initialCache).2).1 =
      .Succeeded (pipe cfg snapshot) ∧
    (execute pipe cfg snapshot true (execute pipe cfg snapshot true initialCache).2).2.execCount
      = 2 := by
  refine ⟨rfl, rfl, ?_, ?_, rfl, rfl, rfl⟩ <;>
    simp [execute, initialCache, lookupCache]

/-- C7: two configurations that differ in any field have different cache
keys, so after a run with the first configuration a submission with the
second misses the cache and executes the pipeline. -/
theorem cache_key_sensitivity (pipe : Config → String → Artifact)
    (c1 c2 : Config) (snapshot : String) (h : c1 ≠ c2) :
    cacheKey c1 snapshot ≠ cacheKey c2 snapshot ∧
    (execute pipe c2 snapshot false (execute pipe c1 snapshot false initialCache).2).1 =
      .Succeeded (pipe c2 snapshot) ∧
    (execute pipe c2 snapshot false (execute pipe c1 snapshot false initialCache).2).2.execCount
      = 2 := by
  have hk : cacheKey c1 snapshot ≠ cacheKey c2 snapshot := by
    intro he
    exact h (congrArg CacheKey.cfg he)
  refine ⟨hk, ?_, ?_⟩ <;>
    simp [execute, initialCache, lookupCache, hk]

/-- C7 witness: flipping `detect_sign` from −1 to 1 misses the cache on the
same snapshot. -/
theorem cache_key_sensitivity_witness :
    cacheKey spikeSortingConfig "snap" ≠ cacheKey cfgDetectPlus "snap" ∧
    (execute pipelineArtifact cfgDetectPlus "snap" false
        (execute pipelineArtifact spikeSortingConfig "snap" false initialCache).2).1 =
      .Succeeded (pipelineArtifact cfgDetectPlus "snap") ∧
    (execute pipelineArtifact cfgDetectPlus "snap" false
        (execute pipelineArtifact spikeSortingConfig "snap" false initialCache).2).2.execCount
      = 2 :=
  cache_key_sensitivity pipelineArtifact spikeSortingConfig cfgDetectPlus "snap"
    (fun he => absurd (congrArg Config.detect_sign he) (by decide))

/-- C4: whatever the body does and however it exits (normal return or
raised error), the temporary workspace directory and everything below it
are gone from the filesystem when the scope closes, paths outside the
workspace survive exactly as the body left them, and the body's outcome
propagates unchanged. -/
theorem workspace_cleanup (fs : FS) (tmpdir : String)
    (body : String → FS → Outcome × FS) (p q : String)
    (hp : underDir tmpdir p = true) (hq : underDir tmpdir q = false) :
    p ∉ (withTemporaryDirectory fs tmpdir body).2 ∧
    (q ∈ (withTemporaryDirectory fs tmpdir body).2 ↔ q ∈ (body tmpdir (tmpdir :: fs)).2) ∧
    (withTemporaryDirectory fs tmpdir body).1 = (body tmpdir (tmpdir :: fs)).1 := by
  refine ⟨?_, ?_, rfl⟩
  · simp [withTemporaryDirectory, rmtree, List.mem_filter, hp]
  · simp [withTemporaryDirectory, rmtree, List.mem_filter, hq]

/-- C4 witness: the raising body that wrote `raw.mda` into the workspace:
the workspace file is gone, the outside file survives. -/
theorem workspace_cleanup_witness :
    "/tmp/ws/raw.mda" ∉ (withTemporaryDirectory ["data.mda"] "/tmp/ws" bodyW).2 ∧
    ("data.mda" ∈ (withTemporaryDirectory ["data.mda"] "/tmp/ws" bodyW).2 ↔
      "data.mda" ∈ (bodyW "/tmp/ws" ("/tmp/ws" :: ["data.mda"])).2) ∧
    (withTemporaryDirectory ["data.mda"] "/tmp/ws" bodyW).1 =
      (bodyW "/tmp/ws" ("/tmp/ws" :: ["data.mda"])).1 :=
  workspace_cleanup ["data.mda"] "/tmp/ws" bodyW "/tmp/ws/raw.mda" "data.mda"
    (by decide) (by decide)

/-- Creating a directory that already exists leaves the filesystem as is;
otherwise the directory is added. Either way it exists afterwards. -/
theorem mem_mkdir2_self (fs : FS) (p : String) : p ∈ mkdir2 fs p := by
  by_cases h : p ∈ fs <;> simp [mkdir2, h]

/-- `mkdir2` never removes an existing path. -/
theorem mem_mkdir2_of_mem (fs : FS) (q : String) {p : String} (h : p ∈ fs) :
    p ∈ mkdir2 fs q := by
  by_cases hq : q ∈ fs <;> simp [mkdir2, hq, h]

/-- The ntrode loop only adds filesystem entries. -/
theorem ntrodeFold_fs_mono (out ename : String) (force_run : Bool) (ns : List Ntrode)
    (acc : FS × List Job) {p : String} (h : p ∈ acc.1) :
    p ∈ (ns.foldl (processNtrode out ename force_run) acc).1 := by
  induction ns generalizing acc with
  | nil => exact h
  | cons n ns ih =>
      rw [List.foldl_cons]
      exact ih _ (mem_mkdir2_of_mem _ _ h)

/-- The epoch loop only adds filesystem entries. -/
theorem epochFold_fs_mono (out : String) (force_run : Bool) (es : List Epoch)
    (acc : FS × List Job) {p : String} (h : p ∈ acc.1) :
    p ∈ (es.foldl (processEpoch out force_run) acc).1 := by
  induction es generalizing acc with
  | nil => exact h
  | cons e es ih =>
      rw [List.foldl_cons]
      exact ih _ (ntrodeFold_fs_mono _ _ _ _ _ (mem_mkdir2_of_mem _ _ h))

/-- Jobs accumulated by the ntrode loop: the previous jobs followed by one
job per ntrode, in order, each with the `<out>/<epoch>/<ntrode>/firings.mda`
output path. -/
theorem ntrodeFold_jobs (out ename : String) (force_run : Bool) (ns : List Ntrode)
    (acc : FS × List Job) :
    (ns.foldl (processNtrode out ename force_run) acc).2 =
      acc.2 ++ ns.map (fun n =>
        spike_sorting n.recording_file
          (out ++ "/" ++ ename ++ "/" ++ n.name ++ "/firings.mda") force_run) := by
  induction ns generalizing acc with
  | nil => simp
  | cons n ns ih =>
      rw [List.foldl_cons, ih]
      simp [processNtrode]

/-- Jobs accumulated by the epoch loop: the previous jobs followed by every
epoch's jobs in order. -/
theorem epochFold_jobs (out : String) (force_run : Bool) (es : List Epoch)
    (acc : FS × List Job) :
    (es.foldl (processEpoch out force_run) acc).2 = acc.2 ++ allJobs out force_run es := by
  induction es generalizing acc with
  | nil => simp [allJobs]
  | cons e es ih =>
      rw [List.foldl_cons, ih]
      simp only [processEpoch, ntrodeFold_jobs, allJobs, epochJobs, List.append_assoc]

/-- Each processed (epoch, ntrode) pair contributes its job to the batch. -/
theorem mem_allJobs (out : String) (force_run : Bool) {epochs : List Epoch}
    {e : Epoch} {n : Ntrode} (he : e ∈ epochs) (hn : n ∈ e.ntrodes) :
    spike_sorting n.recording_file
        (out ++ "/" ++ e.name ++ "/" ++ n.name ++ "/firings.mda") force_run ∈
      allJobs out force_run epochs := by
  induction epochs with
  | nil => cases he
  | cons e' es ih =>
      simp only [allJobs]
      rcases List.mem_cons.mp he with rfl | he'
      · exact List.mem_append_left _ (List.mem_map_of_mem _ hn)
      · exact List.mem_append_right _ (ih he')

/-- The ntrode loop creates the directory of each of its ntrodes. -/
theorem ntrodeDir_mem_ntrodeFold (out ename : String) (force_run : Bool)
    {ns : List Ntrode} {n : Ntrode} (hn : n ∈ ns) (acc : FS × List Job) :
    (out ++ "/" ++ ename ++ "/" ++ n.name) ∈
      (ns.foldl (processNtrode out ename force_run) acc).1 := by
  induction ns generalizing acc with
  | nil => cases hn
  | cons n' ns' ih =>
      rw [List.foldl_cons]
      rcases List.mem_cons.mp hn with rfl | hn'
      · exact ntrodeFold_fs_mono _ _ _ _ _ (mem_mkdir2_self _ _)
      · exact ih hn' _

/-- The epoch loop creates the directory of each of its epochs. -/
theorem epochDir_mem_epochFold (out : String) (force_run : Bool)
    {epochs : List Epoch} {e : Epoch} (he : e ∈ epochs) (acc : FS × List Job) :
    (out ++ "/" ++ e.name) ∈ (epochs.foldl (processEpoch out force_run) acc).1 := by
  induction epochs generalizing acc with
  | nil => cases he
  | cons e' es ih =>
      rw [List.foldl_cons]
      rcases List.mem_cons.mp he with rfl | he'
      · exact epochFold_fs_mono _ _ _ _
          (ntrodeFold_fs_mono _ _ _ _ _ (mem_mkdir2_self _ _))
      · exact ih he' _

/-- The epoch loop creates the directory of every (epoch, ntrode) pair. -/
theorem ntrodeDir_mem_epochFold (out : String) (force_run : Bool)
    {epochs : List Epoch} {e : Epoch} {n : Ntrode}
    (he : e ∈ epochs) (hn : n ∈ e.ntrodes) (acc : FS × List Job) :
    (out ++ "/" ++ e.name ++ "/" ++ n.name) ∈
      (epochs.foldl (processEpoch out force_run) acc).1 := by
  induction epochs generalizing acc with
  | nil => cases he
  | cons e' es ih =>
      rw [List.foldl_cons]
      rcases List.mem_cons.mp he with rfl | he'
      · exact epochFold_fs_mono _ _ _ _ (ntrodeDir_mem_ntrodeFold _ _ _ hn _)
      · exact ih he' _

/-- C8: `main` submits exactly the canonical job list — one job per
(epoch, ntrode) pair, in order, whose output artifact path is
`<outputRoot>/<epoch.name>/<ntrode.name>/firings.mda` — the job of each
processed pair is among them, the output root and both intermediate
directories on the path exist on the final filesystem, and `mkdir2`
creates a directory exactly when it does not already exist. -/
theorem output_paths_and_dirs (out : String) (epochs : List Epoch)
    (force_run : Bool) (fs0 : FS) (e : Epoch) (n : Ntrode)
    (he : e ∈ epochs) (hn : n ∈ e.ntrodes) (fs : FS) (p : String) (hp : p ∈ fs) :
    (main out epochs force_run fs0).2 = allJobs out force_run epochs ∧
    spike_sorting n.recording_file
        (out ++ "/" ++ e.name ++ "/" ++ n.name ++ "/firings.mda") force_run ∈
      (main out epochs force_run fs0).2 ∧
    out ∈ (main out epochs force_run fs0).1 ∧
    (out ++ "/" ++ e.name) ∈ (main out epochs force_run fs0).1 ∧
    (out ++ "/" ++ e.name ++ "/" ++ n.name) ∈ (main out epochs force_run fs0).1 ∧
    mkdir2 fs p = fs ∧
    p ∈ mkdir2 fs p := by
  have hjobs : (main out epochs force_run fs0).2 = allJobs out force_run epochs := by
    show (epochs.foldl (processEpoch out force_run) (mkdir2 fs0 out, [])).2 = _
    rw [epochFold_jobs]
    rfl
  refine ⟨hjobs, ?_, ?_, ?_, ?_, ?_, mem_mkdir2_self fs p⟩
  · rw [hjobs]
    exact mem_allJobs out force_run he hn
  · exact epochFold_fs_mono _ _ _ _ (mem_mkdir2_self fs0 out)
  · exact epochDir_mem_epochFold _ _ he _
  · exact ntrodeDir_mem_epochFold _ _ he hn _
  · simp [mkdir2, hp]

/-- C8 witness: one epoch `20170913` with one ntrode `unit1` under output
root `output`. -/
theorem output_paths_and_dirs_witness :
    (main "output" [epochW] true []).2 = allJobs "output" true [epochW] ∧
    spike_sorting ntrodeW.recording_file
        ("output" ++ "/" ++ epochW.name ++ "/" ++ ntrodeW.name ++ "/firings.mda") true ∈
      (main "output" [epochW] true []).2 ∧
    "output" ∈ (main "output" [epochW] true []).1 ∧
    ("output" ++ "/" ++ epochW.name) ∈ (main "output" [epochW] true []).1 ∧
    ("output" ++ "/" ++ epochW.name ++ "/" ++ ntrodeW.name) ∈
      (main "output" [epochW] true []).1 ∧
    mkdir2 ["output"] "output" = ["output"] ∧
    "output" ∈ mkdir2 ["output"] "output" :=
  output_paths_and_dirs "output" [epochW] true [] epochW ntrodeW
    (by simp) (by simp [epochW]) ["output"] "output" (by simp)

/-- C9: in every state the scheduler can reach, at most `N` jobs run
concurrently, and the jobs that have started execution are exactly an
initial segment of the submission order (FIFO, no reordering). -/
theorem scheduler_bound_fifo (N : Nat) (jobs : List Nat) (s : SchedState)
    (h : SchedReachable N jobs s) :
    s.running.length ≤ N ∧ s.started ++ s.pending = jobs := by
  induction h with
  | init => exact ⟨Nat.zero_le N, rfl⟩
  | step hr hstep ih =>
      cases hstep with
      | start j rest running started hlt =>
          refine ⟨?_, ?_⟩
          · simpa using hlt
          · simpa [List.append_assoc] using ih.2
      | finish j pending r1 r2 started =>
          refine ⟨?_, ih.2⟩
          have hl := ih.1
          simp [List.length_append] at hl ⊢
          omega

/-- C9 witness: with one worker and two submitted jobs, the state after
starting the first job respects the bound and the FIFO order. -/
theorem scheduler_bound_fifo_witness :
    schedW.running.length ≤ 1 ∧ schedW.started ++ schedW.pending = [0, 1] :=
  scheduler_bound_fifo 1 [0, 1] schedW
    (SchedReachable.step SchedReachable.init (SchedStep.start 0 [1] [] [] (by decide)))

end SortAnimalDay
